import Mathlib

/-!
Verification of the column-specification compiler of the `saas-cli`
repository: the parser `parseColumnSpec` and the two emitters
`columnsToSQL` and `columnsToDrift` from `src/utils/column-parser.ts`,
together with the identifier validator from `src/utils/validation.ts`.

Strings are modelled through their character lists; the JavaScript string
primitives used by the source (`split`, `trim`, `toLowerCase`, regex
replaces) are embedded as executable functions on `List Char` restricted
to their ASCII behaviour, which is the behaviour the source exercises.
-/

namespace SaasCli

/-- JavaScript whitespace as used by `trim` and the `\s` character class,
restricted to the ASCII range. -/
def jsWs (c : Char) : Bool :=
  c == ' ' || c == '\t' || c == '\n' || c == '\r'

/-- Embedding of `String.prototype.toLowerCase` (ASCII range). -/
def strToLower (s : String) : String :=
  ⟨s.data.map Char.toLower⟩

/-- Embedding of `String.prototype.trim`: strip leading and trailing
whitespace. -/
def strTrim (s : String) : String :=
  ⟨((s.data.dropWhile jsWs).reverse.dropWhile jsWs).reverse⟩

/-- Split a character list at every occurrence of `sep`; mirrors
`String.prototype.split` with a one-character separator (so the empty
string splits to `[""]`). -/
def splitChar (sep : Char) : List Char → List (List Char)
  | [] => [[]]
  | c :: rest =>
    match splitChar sep rest with
    | [] => if c == sep then [[], []] else [[c]]
    | h :: t => if c == sep then [] :: h :: t else (c :: h) :: t

/-- Embedding of `s.split(sep)` for a one-character separator. -/
def strSplit (s : String) (sep : Char) : List String :=
  (splitChar sep s.data).map fun l => ⟨l⟩

/-- `ColumnSpec` from `src/types/index.ts`: the column descriptor produced
by the parser.  Optional fields of the TypeScript interface become
`Option`/defaulted fields. -/
structure ColumnSpec where
  name : String
  type : String
  isPrimaryKey : Bool := false
  isAutoIncrement : Bool := false
  isForeignKey : Bool := false
  foreignKeyTable : Option String := none
  foreignKeyColumn : Option String := none
  isNullable : Bool := false
  defaultValue : Option String := none
  deriving DecidableEq, Repr

/-- `CLIError` from `src/utils/error.ts` (message, exit code, hint). -/
structure CLIErr where
  message : String
  exitCode : Nat
  hint : String
  deriving DecidableEq, Repr

/-- The alias table of `normalizeType` in `src/utils/column-parser.ts`. -/
def typeMap : List (String × String) :=
  [("str", "text"), ("string", "text"), ("varchar", "text"), ("char", "text"),
   ("int", "integer"), ("number", "integer"),
   ("bigint", "bigint"),
   ("float", "real"), ("double", "real"), ("decimal", "real"),
   ("bool", "boolean"), ("boolean", "boolean"),
   ("date", "datetime"), ("timestamp", "datetime"), ("timestamptz", "datetime"),
   ("time", "datetime"), ("datetime", "datetime"),
   ("uuid", "uuid"),
   ("json", "jsonb"), ("jsonb", "jsonb"),
   ("blob", "blob"), ("bytes", "blob"), ("binary", "blob")]

/-- `normalizeType`: look the lower-cased raw type up in the alias table;
unrecognized types pass through lower-cased. -/
def normalizeType (type : String) : String :=
  match typeMap.lookup (strToLower type) with
  | some v => v
  | none => strToLower type

/-- The regex `/^fk\(([^)]+)\)$/i` applied to a modifier: on a match,
return the captured reference between `fk(` and the final `)`. -/
def fkMatch (m : String) : Option String :=
  let cs := m.data
  let inner := (cs.drop 3).dropLast
  if (cs.take 3).map Char.toLower == ['f', 'k', '('] && cs.getLastD ' ' == ')'
      && decide (5 ≤ cs.length) && !(inner.contains ')') then
    some ⟨inner⟩
  else
    none

/-- The regex `/^default\((.+)\)$/i` applied to a modifier: on a match,
return the capture between `default(` and the final `)` (the greedy `.+`
captures up to the last `)`, so nested parens such as `now()` survive;
`.` does not match line terminators). -/
def defaultMatch (m : String) : Option String :=
  let cs := m.data
  let inner := (cs.drop 8).dropLast
  if (cs.take 8).map Char.toLower == ['d', 'e', 'f', 'a', 'u', 'l', 't', '(']
      && cs.getLastD ' ' == ')' && decide (10 ≤ cs.length)
      && !(inner.contains '\n') && !(inner.contains '\r') then
    some ⟨inner⟩
  else
    none

/-- The foreign-key branch of `parseModifier`: split the reference on `.`,
take the last part as the column when there are at least two parts,
otherwise default the column to `"id"`. -/
def applyFk (column : ColumnSpec) (ref : String) : ColumnSpec :=
  let parts := strSplit ref '.'
  if 2 ≤ parts.length then
    { column with
      isForeignKey := true,
      foreignKeyTable := some (String.intercalate "." parts.dropLast),
      foreignKeyColumn := some (parts.getLastD "") }
  else
    { column with
      isForeignKey := true,
      foreignKeyTable := some ref,
      foreignKeyColumn := some "id" }

/-- `parseModifier`: apply one modifier token to a column, or fail with an
unknown-modifier error. -/
def parseModifier (column : ColumnSpec) (modifier : String) : Except CLIErr ColumnSpec :=
  let mod := strToLower modifier
  if mod == "pk" || mod == "primarykey" || mod == "primary_key" then
    .ok { column with isPrimaryKey := true }
  else if mod == "autoincrement" || mod == "auto_increment" || mod == "serial" then
    .ok { column with isAutoIncrement := true }
  else if mod == "nullable" || mod == "null" then
    .ok { column with isNullable := true }
  else
    match fkMatch modifier with
    | some ref => .ok (applyFk column ref)
    | none =>
      match defaultMatch modifier with
      | some v => .ok { column with defaultValue := some v }
      | none =>
        .error ⟨"Unknown modifier: " ++ modifier, 1,
          "Valid modifiers: pk, fk(table.column), nullable, default(value), autoincrement"⟩

/-- The modifier loop of `parseColumn`. -/
def applyModifiers (column : ColumnSpec) : List String → Except CLIErr ColumnSpec
  | [] => .ok column
  | m :: rest => do
    let column' ← parseModifier column m
    applyModifiers column' rest

/-- `parseColumn`: split one column definition on `:`, trim the segments,
require a name and a type, then fold the modifiers. -/
def parseColumn (definition : String) : Except CLIErr ColumnSpec :=
  match (strSplit definition ':').map strTrim with
  | name :: type :: modifiers =>
    if name == "" || type == "" then
      .error ⟨"Missing name or type in column: " ++ definition, 1,
        "Each column must have a name and type"⟩
    else
      applyModifiers { name := name, type := normalizeType type } modifiers
  | _ =>
    .error ⟨"Invalid column definition: " ++ definition, 1,
      "Format: name:type[:modifiers]"⟩

/-- The comma-separated segments of a spec string that survive trimming,
in order; empty segments are dropped, exactly as the `if (!part) continue`
of `parseColumnSpec` drops them. -/
def nonEmptySegments (spec : String) : List String :=
  ((strSplit spec ',').map strTrim).filter fun p => p != ""

/-- The parsing loop of `parseColumnSpec` over the surviving segments. -/
def parseColumns : List String → Except CLIErr (List ColumnSpec)
  | [] => .ok []
  | p :: rest => do
    let c ← parseColumn p
    let cs ← parseColumns rest
    .ok (c :: cs)

/-- `parseColumnSpec`: split on commas, trim, skip empty segments, parse
each remaining segment in order. -/
def parseColumnSpec (spec : String) : Except CLIErr (List ColumnSpec) :=
  parseColumns (nonEmptySegments spec)

/-- First replace of `toSnakeCase`: `/([A-Z])/g → '_$1'`. -/
def expandUpper : List Char → List Char
  | [] => []
  | c :: rest => if c.isUpper then '_' :: c :: expandUpper rest else c :: expandUpper rest

/-- Separator class of the second replace of `toSnakeCase`: `[-\s]`. -/
def isSnakeSep (c : Char) : Bool := c == '-' || jsWs c

/-- Second replace of `toSnakeCase`: `/[-\s]+/g → '_'` (a maximal run of
hyphens/whitespace becomes a single underscore); the flag records whether
we are inside such a run. -/
def collapseSeps : Bool → List Char → List Char
  | _, [] => []
  | inRun, c :: rest =>
    if isSnakeSep c then
      if inRun then collapseSeps true rest else '_' :: collapseSeps true rest
    else c :: collapseSeps false rest

/-- Last replace of `toSnakeCase`: `/^_/ → ''` (one leading underscore). -/
def dropLeadingUnderscore : List Char → List Char
  | '_' :: rest => rest
  | l => l

/-- `toSnakeCase` from `src/utils/column-parser.ts`. -/
def toSnakeCase (str : String) : String :=
  ⟨dropLeadingUnderscore ((collapseSeps false (expandUpper str.data)).map Char.toLower)⟩

/-- Separator class of the camel/pascal replace: `[-_\s]`. -/
def isCaseSep (c : Char) : Bool := c == '-' || c == '_' || jsWs c

/-- The replace `/[-_\s]+(.)?/g → (c ? c.toUpperCase() : '')` shared by
`toCamelCase` and `toPascalCase`; the flag records that a separator run
was just consumed and the next character must be upper-cased. -/
def caseAux : Bool → List Char → List Char
  | _, [] => []
  | pend, c :: rest =>
    if isCaseSep c then caseAux true rest
    else if pend then c.toUpper :: caseAux false rest
    else c :: caseAux false rest

/-- Lower-case the first character (`/^(.)/` replace of `toCamelCase`). -/
def lowerFirst : List Char → List Char
  | [] => []
  | c :: rest => c.toLower :: rest

/-- Upper-case the first character (`/^(.)/` replace of `toPascalCase`). -/
def upperFirst : List Char → List Char
  | [] => []
  | c :: rest => c.toUpper :: rest

/-- `toCamelCase` from `src/utils/column-parser.ts`. -/
def toCamelCase (str : String) : String :=
  ⟨lowerFirst (caseAux false str.data)⟩

/-- `toPascalCase` from `src/utils/column-parser.ts`. -/
def toPascalCase (str : String) : String :=
  ⟨upperFirst (caseAux false str.data)⟩

/-- The SQL type table of `sqlType`. -/
def sqlTypeMap : List (String × String) :=
  [("integer", "INTEGER"), ("bigint", "BIGINT"), ("text", "TEXT"),
   ("boolean", "BOOLEAN"), ("real", "REAL"), ("datetime", "TIMESTAMPTZ"),
   ("uuid", "UUID"), ("jsonb", "JSONB"), ("blob", "BYTEA")]

/-- `sqlType`: map a normalized type to its SQL token, defaulting to
`TEXT`. -/
def sqlType (type : String) : String :=
  (sqlTypeMap.lookup type).getD "TEXT"

/-- `formatDefaultValue`: format a default value for the SQL emitter. -/
def formatDefaultValue (value type : String) : String :=
  if value == "now()" || value == "now" then "now()"
  else if type == "boolean" then
    if strToLower value == "true" then "true" else "false"
  else if type == "integer" || type == "real" || type == "bigint" then value
  else "'" ++ value ++ "'"

/-- JavaScript truthiness of the optional `foreignKeyTable` field:
`undefined` and the empty string are falsy. -/
def optTruthy : Option String → Bool
  | some t => t != ""
  | none => false

/-- The token `col.foreignKeyColumn || 'id'` of the `REFERENCES` clause:
a missing or empty column falls back to `id`. -/
def fkColToken (col : ColumnSpec) : String :=
  match col.foreignKeyColumn with
  | some s => if s == "" then "id" else s
  | none => "id"

/-- The `REFERENCES` clause appended by `columnsToSQL` when the column is
a foreign key with a truthy table. -/
def refSuffix (col : ColumnSpec) : String :=
  if col.isForeignKey && optTruthy col.foreignKeyTable then
    " REFERENCES " ++ col.foreignKeyTable.getD "" ++ "(" ++ fkColToken col
      ++ ") ON DELETE CASCADE"
  else ""

/-- The per-column line of `columnsToSQL`, built exactly as the source
builds `line`. -/
def sqlLine (col : ColumnSpec) : String :=
  let base :=
    if col.isPrimaryKey && col.isAutoIncrement then
      "  " ++ toSnakeCase col.name ++ " "
        ++ (if col.type == "uuid" then "UUID DEFAULT gen_random_uuid()" else "SERIAL")
        ++ " PRIMARY KEY"
    else
      let l := "  " ++ toSnakeCase col.name ++ " " ++ sqlType col.type
      if col.isPrimaryKey then l ++ " PRIMARY KEY" else l
  let withNull :=
    if !col.isNullable && !col.isPrimaryKey then base ++ " NOT NULL" else base
  let withDefault :=
    match col.defaultValue with
    | some v =>
      if !col.isPrimaryKey then
        withNull ++ " DEFAULT " ++ formatDefaultValue v col.type
      else withNull
    | none => withNull
  withDefault ++ refSuffix col

/-- `columnsToSQL`: the `CREATE TABLE` statement. -/
def columnsToSQL (tableName : String) (columns : List ColumnSpec) : String :=
  "CREATE TABLE " ++ toSnakeCase tableName ++ " (\n"
    ++ String.intercalate ",\n" (columns.map sqlLine) ++ "\n);"

/-- The Drift type table of `getDriftType`. -/
def driftTypeMap : List (String × String) :=
  [("integer", "integer"), ("bigint", "int64"), ("text", "text"),
   ("boolean", "boolean"), ("real", "real"), ("datetime", "dateTime"),
   ("uuid", "text"), ("jsonb", "text"), ("blob", "blob")]

/-- `getDriftType`: map a normalized type to a Drift builder token,
defaulting to `text`. -/
def getDriftType (type : String) : String :=
  (driftTypeMap.lookup type).getD "text"

/-- `formatDartDefault`: format a default value for the Drift emitter. -/
def formatDartDefault (value type : String) : String :=
  if value == "now()" || value == "now" then "currentDateAndTime"
  else if type == "boolean" then
    "const Constant(" ++ (if strToLower value == "true" then "true" else "false") ++ ")"
  else if type == "integer" || type == "real" || type == "bigint" then
    "const Constant(" ++ value ++ ")"
  else "const Constant('" ++ value ++ "')"

/-- `driftColumn`: one Drift column declaration. -/
def driftColumn (col : ColumnSpec) : String :=
  let driftType := getDriftType col.type
  let line := "  " ++ driftType ++ "Column get " ++ toCamelCase col.name
    ++ " => " ++ driftType ++ "()"
  let line := if col.isPrimaryKey && col.isAutoIncrement then line ++ ".autoIncrement()" else line
  let line := if col.isNullable then line ++ ".nullable()" else line
  let line :=
    match col.defaultValue with
    | some v => line ++ ".withDefault(" ++ formatDartDefault v col.type ++ ")"
    | none => line
  line ++ "();"

/-- `columnsToDrift`: the Drift table class. -/
def columnsToDrift (tableName : String) (columns : List ColumnSpec) : String :=
  String.intercalate "\n"
    (("class " ++ toPascalCase tableName ++ " extends Table \x7b")
      :: columns.map driftColumn ++ ["\x7d"])

/-- `IDENTIFIER_REGEX = /^[a-zA-Z_][a-zA-Z0-9_]*$/` with
`validateIdentifier` from `src/utils/validation.ts`. -/
def validateIdentifier (name : String) : Bool :=
  match name.data with
  | [] => false
  | c :: rest => (c.isAlpha || c == '_') && rest.all fun d => d.isAlphanum || d == '_'

/-- The per-column line as the spec's §4.2 precedence list words it (C5):
auto-increment primary keys drop the type token and emit either the UUID
default or `SERIAL`; plain primary keys emit `<col> <SQL_TYPE> PRIMARY
KEY`; otherwise `<col> <SQL_TYPE>` followed by ` NOT NULL` exactly when
the column is not nullable; a `DEFAULT` clause is appended only when a
default value is present and the column is not a primary key.  To be
compared against `sqlLine`, the line the source builds. -/
def sqlLineSpec (c : ColumnSpec) : String :=
  let head :=
    if c.isPrimaryKey && c.isAutoIncrement then
      "  " ++ toSnakeCase c.name ++ " "
        ++ (if c.type == "uuid" then "UUID DEFAULT gen_random_uuid()" else "SERIAL")
        ++ " PRIMARY KEY"
    else if c.isPrimaryKey then
      "  " ++ toSnakeCase c.name ++ " " ++ sqlType c.type ++ " PRIMARY KEY"
    else
      ("  " ++ toSnakeCase c.name ++ " " ++ sqlType c.type)
        ++ (if c.isNullable then "" else " NOT NULL")
  match c.defaultValue with
  | some v =>
    if c.isPrimaryKey then head else head ++ " DEFAULT " ++ formatDefaultValue v c.type
  | none => head

end SaasCli

namespace SaasCli

/-! ## General lemmas about the string embedding -/

theorem charToLowerIdem (c : Char) : c.toLower.toLower = c.toLower := by
  by_cases h : 65 ≤ c.toNat ∧ c.toNat ≤ 90
  · have hlow : c.toLower = Char.ofNat (c.toNat + 32) := by
      simp [Char.toLower, ge_iff_le, h.1, h.2]
    rw [hlow]
    obtain ⟨h1, h2⟩ := h
    generalize c.toNat = n at h1 h2 ⊢
    interval_cases n <;> decide
  · have hlow : c.toLower = c := by
      simp only [Char.toLower]
      rw [if_neg]
      exact fun hc => h ⟨hc.1, hc.2⟩
    rw [hlow]
    exact hlow

theorem strToLower_idem (s : String) : strToLower (strToLower s) = strToLower s := by
  show String.mk ((s.data.map Char.toLower).map Char.toLower) = String.mk (s.data.map Char.toLower)
  rw [List.map_map]
  have h : Char.toLower ∘ Char.toLower = Char.toLower := funext charToLowerIdem
  rw [h]

theorem lookup_snd_mem {α β : Type} [BEq α] :
    ∀ (l : List (α × β)) (k : α) (v : β), l.lookup k = some v → v ∈ l.map Prod.snd := by
  intro l
  induction l with
  | nil => intro k v h; simp [List.lookup] at h
  | cons p t ih =>
    intro k v h
    rw [List.lookup] at h
    cases hk : k == p.1 with
    | true => rw [hk] at h; simp at h; simp [h]
    | false =>
      rw [hk] at h
      simp only [List.map_cons, List.mem_cons]
      exact Or.inr (ih k v h)

theorem parseColumns_forall₂ :
    ∀ (segs : List String) (l : List ColumnSpec), parseColumns segs = .ok l →
      List.Forall₂ (fun seg c => parseColumn seg = .ok c) segs l := by
  intro segs
  induction segs with
  | nil =>
    intro l h
    simp only [parseColumns] at h
    cases h
    exact List.Forall₂.nil
  | cons p rest ih =>
    intro l h
    simp only [parseColumns] at h
    cases hp : parseColumn p with
    | error e => rw [hp] at h; cases h
    | ok c =>
      rw [hp] at h
      cases hr : parseColumns rest with
      | error e => rw [hr] at h; cases h
      | ok cs =>
        rw [hr] at h
        cases h
        exact List.Forall₂.cons hp (ih cs hr)

end SaasCli

namespace SaasCli

/-- C9: type normalization is idempotent.  A value produced by the alias
table is itself a fixed point of `normalizeType`, and unrecognized types
pass through lower-cased, with lower-casing idempotent. -/
theorem normalizeType_idempotent (t : String) :
    normalizeType (normalizeType t) = normalizeType t := by
  cases h : typeMap.lookup (strToLower t) with
  | none =>
    have e1 : normalizeType t = strToLower t := by simp [normalizeType, h]
    rw [e1]
    simp [normalizeType, strToLower_idem, h]
  | some v =>
    have e1 : normalizeType t = v := by simp [normalizeType, h]
    rw [e1]
    have hv : v ∈ typeMap.map Prod.snd := lookup_snd_mem typeMap (strToLower t) v h
    have hv' : v ∈ ["text", "integer", "bigint", "real", "boolean", "datetime",
        "uuid", "jsonb", "blob"] := by
      simpa [typeMap] using hv
    fin_cases hv' <;> rfl

/-- C8: on success, `parseColumnSpec` returns one descriptor per surviving
(non-empty, trimmed) comma-separated segment, each parsed from its segment,
in left-to-right order; hence the output length equals the number of
non-empty segments. -/
theorem parseColumnSpec_segmentwise (spec : String) (l : List ColumnSpec)
    (h : parseColumnSpec spec = .ok l) :
    List.Forall₂ (fun seg c => parseColumn seg = .ok c) (nonEmptySegments spec) l ∧
      l.length = (nonEmptySegments spec).length := by
  have hf := parseColumns_forall₂ (nonEmptySegments spec) l h
  exact ⟨hf, hf.length_eq.symm⟩

/-- Witness for C8 at the spec `"id:int,,name:text"`, whose empty middle
segment is skipped. -/
theorem parseColumnSpec_segmentwise_witness :
    List.Forall₂ (fun seg c => parseColumn seg = .ok c)
        (nonEmptySegments "id:int,,name:text")
        [{ name := "id", type := "integer" }, { name := "name", type := "text" }] ∧
      ([{ name := "id", type := "integer" }, { name := "name", type := "text" }] :
          List ColumnSpec).length = (nonEmptySegments "id:int,,name:text").length :=
  parseColumnSpec_segmentwise "id:int,,name:text" _ (by rfl)

end SaasCli

namespace SaasCli

theorem forall₂_mem_right {α β : Type} {R : α → β → Prop} :
    ∀ {l1 : List α} {l2 : List β}, List.Forall₂ R l1 l2 → ∀ b ∈ l2, ∃ a ∈ l1, R a b := by
  intro l1 l2 h
  induction h with
  | nil => intro b hb; cases hb
  | @cons a b l1' l2' hr ht ih =>
    intro x hx
    rcases List.mem_cons.mp hx with hx | hx
    · exact ⟨a, List.mem_cons_self a l1', hx ▸ hr⟩
    · obtain ⟨a', ha', hra'⟩ := ih x hx
      exact ⟨a', List.mem_cons_of_mem a ha', hra'⟩

theorem parseModifier_fkcol (col : ColumnSpec) (m : String) (col' : ColumnSpec)
    (h : parseModifier col m = .ok col')
    (inv : col.isForeignKey = true → col.foreignKeyColumn.isSome = true) :
    col'.isForeignKey = true → col'.foreignKeyColumn.isSome = true := by
  simp only [parseModifier] at h
  split at h
  · cases h; intro hf; exact inv hf
  · split at h
    · cases h; intro hf; exact inv hf
    · split at h
      · cases h; intro hf; exact inv hf
      · split at h
        · cases h
          intro hf
          simp only [applyFk]
          split <;> rfl
        · split at h
          · cases h; intro hf; exact inv hf
          · cases h

theorem applyModifiers_fkcol :
    ∀ (mods : List String) (col col' : ColumnSpec),
      applyModifiers col mods = .ok col' →
      (col.isForeignKey = true → col.foreignKeyColumn.isSome = true) →
      (col'.isForeignKey = true → col'.foreignKeyColumn.isSome = true) := by
  intro mods
  induction mods with
  | nil =>
    intro col col' h inv
    simp only [applyModifiers] at h
    cases h
    exact inv
  | cons m rest ih =>
    intro col col' h inv
    simp only [applyModifiers] at h
    cases hm : parseModifier col m with
    | error e => rw [hm] at h; cases h
    | ok c2 => rw [hm] at h; exact ih c2 col' h (parseModifier_fkcol col m c2 hm inv)

theorem parseColumn_fkcol (d : String) (c : ColumnSpec) (h : parseColumn d = .ok c) :
    c.isForeignKey = true → c.foreignKeyColumn.isSome = true := by
  unfold parseColumn at h
  split at h
  · split at h
    · cases h
    · exact applyModifiers_fkcol _ _ c h fun hf => (Bool.false_ne_true hf).elim
  · cases h

/-- C7: the fk reference is split on dots — with at least two parts the
last part is the foreign-key column and the rest, rejoined with dots, the
table; with one part the column defaults to `"id"`; consequently every
descriptor produced by the parser with `isForeignKey` set has a defined
`foreignKeyColumn`. -/
theorem fk_reference_resolution :
    (∀ (col : ColumnSpec) (ref : String), 2 ≤ (strSplit ref '.').length →
        applyFk col ref = { col with
          isForeignKey := true,
          foreignKeyTable := some (String.intercalate "." (strSplit ref '.').dropLast),
          foreignKeyColumn := some ((strSplit ref '.').getLastD "") }) ∧
    (∀ (col : ColumnSpec) (ref : String), (strSplit ref '.').length = 1 →
        applyFk col ref = { col with
          isForeignKey := true,
          foreignKeyTable := some ref,
          foreignKeyColumn := some "id" }) ∧
    (∀ (spec : String) (l : List ColumnSpec), parseColumnSpec spec = .ok l →
        ∀ c ∈ l, c.isForeignKey = true → c.foreignKeyColumn.isSome = true) := by
  refine ⟨?_, ?_, ?_⟩
  · intro col ref h
    simp [applyFk, h]
  · intro col ref h
    simp [applyFk, h]
  · intro spec l h c hc hfk
    obtain ⟨seg, _, hpc⟩ := forall₂_mem_right (parseColumns_forall₂ _ _ h) c hc
    exact parseColumn_fkcol seg c hpc hfk

/-- Witness for C7: `fk(auth.users.id)` resolves to table `auth.users` and
column `id`; `fk(users)` resolves to table `users` with the column
defaulted to `id`; the parsed descriptor of `userId:uuid:fk(auth.users.id)`
has a defined foreign-key column. -/
theorem fk_reference_resolution_witness :
    applyFk { name := "userId", type := "uuid" } "auth.users.id" =
      { name := "userId", type := "uuid", isForeignKey := true,
        foreignKeyTable := some (String.intercalate "." (strSplit "auth.users.id" '.').dropLast),
        foreignKeyColumn := some ((strSplit "auth.users.id" '.').getLastD "") } ∧
    applyFk { name := "userId", type := "uuid" } "users" =
      { name := "userId", type := "uuid", isForeignKey := true,
        foreignKeyTable := some "users", foreignKeyColumn := some "id" } ∧
    ∀ c ∈ [(⟨"userId", "uuid", false, false, true, some "auth.users", some "id",
        false, none⟩ : ColumnSpec)],
      c.isForeignKey = true → c.foreignKeyColumn.isSome = true :=
  ⟨fk_reference_resolution.1 _ "auth.users.id" (by decide),
   fk_reference_resolution.2.1 _ "users" (by decide),
   fk_reference_resolution.2.2 "userId:uuid:fk(auth.users.id)" _ (by rfl)⟩

end SaasCli

namespace SaasCli

theorem strAppend_empty (s : String) : s ++ "" = s := by
  cases s with
  | mk data => show String.mk (data ++ []) = String.mk data; rw [List.append_nil]

/-- C5: the line `columnsToSQL` builds for a column is exactly the line of
the spec's precedence list, followed by the `REFERENCES` suffix. -/
theorem sqlLine_follows_spec_precedence (c : ColumnSpec) :
    sqlLine c = sqlLineSpec c ++ refSuffix c := by
  cases hpk : c.isPrimaryKey <;> cases hai : c.isAutoIncrement <;>
    cases hnl : c.isNullable <;> cases hdv : c.defaultValue <;>
    simp [sqlLine, sqlLineSpec, hpk, hai, hnl, hdv, strAppend_empty]

/-- C6: the SQL default formatting rules — `now()`/`now` pass through as
`now()`; booleans render unquoted from a case-insensitive comparison with
`"true"`; numeric types pass the raw token through; everything else is
single-quoted with no internal escaping. -/
theorem formatDefaultValue_rules :
    (∀ t, formatDefaultValue "now()" t = "now()") ∧
    (∀ t, formatDefaultValue "now" t = "now()") ∧
    (∀ v, v ≠ "now()" → v ≠ "now" → strToLower v = "true" →
        formatDefaultValue v "boolean" = "true") ∧
    (∀ v, v ≠ "now()" → v ≠ "now" → strToLower v ≠ "true" →
        formatDefaultValue v "boolean" = "false") ∧
    (∀ v t, v ≠ "now()" → v ≠ "now" → (t = "integer" ∨ t = "real" ∨ t = "bigint") →
        formatDefaultValue v t = v) ∧
    (∀ v t, v ≠ "now()" → v ≠ "now" → t ≠ "boolean" → t ≠ "integer" → t ≠ "real" →
        t ≠ "bigint" → formatDefaultValue v t = "'" ++ v ++ "'") := by
  refine ⟨?_, ?_, ?_, ?_, ?_, ?_⟩
  · intro t; simp [formatDefaultValue]
  · intro t; simp [formatDefaultValue]
  · intro v h1 h2 h3; simp [formatDefaultValue, h1, h2, h3]
  · intro v h1 h2 h3; simp [formatDefaultValue, h1, h2, h3]
  · intro v t h1 h2 h3
    rcases h3 with h3 | h3 | h3 <;> subst h3 <;> simp [formatDefaultValue, h1, h2]
  · intro v t h1 h2 h3 h4 h5 h6; simp [formatDefaultValue, h1, h2, h3, h4, h5, h6]

/-- Witness for C6: concrete defaults — `now()` under `datetime`, `TRUE`
and `nope` under `boolean`, `42` under `integer`, and a text default with
an embedded single quote, which is emitted unescaped. -/
theorem formatDefaultValue_rules_witness :
    formatDefaultValue "now()" "datetime" = "now()" ∧
    formatDefaultValue "now" "datetime" = "now()" ∧
    formatDefaultValue "TRUE" "boolean" = "true" ∧
    formatDefaultValue "nope" "boolean" = "false" ∧
    formatDefaultValue "42" "integer" = "42" ∧
    formatDefaultValue "O'Brien" "text" = "'" ++ "O'Brien" ++ "'" :=
  ⟨formatDefaultValue_rules.1 "datetime",
   formatDefaultValue_rules.2.1 "datetime",
   formatDefaultValue_rules.2.2.1 "TRUE" (by decide) (by decide) (by rfl),
   formatDefaultValue_rules.2.2.2.1 "nope" (by decide) (by decide) (by decide),
   formatDefaultValue_rules.2.2.2.2.1 "42" "integer" (by decide) (by decide) (Or.inl rfl),
   formatDefaultValue_rules.2.2.2.2.2 "O'Brien" "text" (by decide) (by decide) (by decide)
     (by decide) (by decide) (by decide)⟩

end SaasCli

namespace SaasCli

/-- C10: a foreign-key column without a truthy `foreignKeyTable` gets no
`REFERENCES` clause (its line is the one a non-foreign-key column would
get), and every emitted `REFERENCES` clause has the shape
`REFERENCES <table>(<column>) ON DELETE CASCADE` with a non-empty table
and a column token that falls back to `id` when missing or empty. -/
theorem references_clause_shape :
    (∀ c : ColumnSpec, c.isForeignKey = true → c.foreignKeyTable = none →
        sqlLine c = sqlLine { c with isForeignKey := false }) ∧
    (∀ c : ColumnSpec, refSuffix c ≠ "" →
        ∃ t, c.foreignKeyTable = some t ∧ t ≠ "" ∧ fkColToken c ≠ "" ∧
          refSuffix c = " REFERENCES " ++ t ++ "(" ++ fkColToken c ++ ") ON DELETE CASCADE") := by
  constructor
  · intro c hfk htab
    have h1 : refSuffix c = "" := by simp [refSuffix, htab, optTruthy]
    have h2 : refSuffix { c with isForeignKey := false } = "" := by simp [refSuffix]
    simp [sqlLine, h1, h2]
  · intro c h
    by_cases hc : (c.isForeignKey && optTruthy c.foreignKeyTable) = true
    · cases ht : c.foreignKeyTable with
      | none =>
        rw [ht] at hc
        simp [optTruthy] at hc
      | some t =>
        have htne : t ≠ "" := by
          rw [ht] at hc
          simp [optTruthy] at hc
          exact hc.2
        have hcol : fkColToken c ≠ "" := by
          unfold fkColToken
          cases c.foreignKeyColumn with
          | none => decide
          | some s =>
            by_cases hs : (s == "") = true
            · simp [hs]
            · simp only [Bool.not_eq_true] at hs
              simp [hs]
              exact fun he => by simp [he] at hs
        refine ⟨t, rfl, htne, hcol, ?_⟩
        unfold refSuffix
        rw [if_pos hc, ht]
        rfl
    · exfalso
      apply h
      simp [refSuffix, hc]

/-- Witness for C10: a foreign-key descriptor with no table emits the same
line as its non-foreign-key copy, and a descriptor with table
`auth.users` and no explicit column yields a `REFERENCES` clause with the
column defaulted. -/
theorem references_clause_shape_witness :
    sqlLine ⟨"userId", "uuid", false, false, true, none, none, false, none⟩ =
      sqlLine ⟨"userId", "uuid", false, false, false, none, none, false, none⟩ ∧
    ∃ t, (⟨"userId", "uuid", false, false, true, some "auth.users", none, false,
        none⟩ : ColumnSpec).foreignKeyTable = some t ∧ t ≠ "" ∧
      fkColToken ⟨"userId", "uuid", false, false, true, some "auth.users", none, false,
        none⟩ ≠ "" ∧
      refSuffix ⟨"userId", "uuid", false, false, true, some "auth.users", none, false,
        none⟩ = " REFERENCES " ++ t ++ "("
          ++ fkColToken ⟨"userId", "uuid", false, false, true, some "auth.users", none,
            false, none⟩ ++ ") ON DELETE CASCADE" :=
  ⟨references_clause_shape.1 _ rfl rfl, references_clause_shape.2 _ (by decide)⟩

/-- C4: `columnsToDrift` applies no identifier validation to the table
name — even for a name rejected by `validateIdentifier` it totally returns
the class definition, with only the Pascal-case conversion applied to the
name (the source emitter has no raising path at all; its embedding is a
total function, and this equation covers every invalid name). -/
theorem columnsToDrift_no_validation (tableName : String) (columns : List ColumnSpec)
    (_h : validateIdentifier tableName = false) :
    columnsToDrift tableName columns =
      String.intercalate "\n"
        (("class " ++ toPascalCase tableName ++ " extends Table \x7b")
          :: columns.map driftColumn ++ ["\x7d"]) :=
  rfl

/-- Witness for C4 at an invalid table name with one column. -/
theorem columnsToDrift_no_validation_witness :
    validateIdentifier "bad table!" = false ∧
    columnsToDrift "bad table!" [{ name := "id", type := "integer" }] =
      String.intercalate "\n"
        (("class " ++ toPascalCase "bad table!" ++ " extends Table \x7b")
          :: ([{ name := "id", type := "integer" }] : List ColumnSpec).map driftColumn
            ++ ["\x7d"]) :=
  ⟨by decide, columnsToDrift_no_validation "bad table!" _ (by decide)⟩

end SaasCli

namespace SaasCli

/-- Counterexample for C1: the SQL emitter does not raise on the classic
injection table name — it returns the statement, with only snake-case
conversion applied; `validateIdentifier` would have rejected the name, but
`columnsToSQL` never consults it. -/
theorem columnsToSQL_injection_counterexample :
    columnsToSQL "users; DROP TABLE users;--" [{ name := "id", type := "integer" }] =
      "CREATE TABLE users;__d_r_o_p__t_a_b_l_e_users;_ (\n  id INTEGER NOT NULL\n);" ∧
    validateIdentifier "users; DROP TABLE users;--" = false := by
  exact ⟨rfl, by decide⟩

/-- C1 as amended: `columnsToSQL` performs no identifier validation at
all; for every table name rejected by the identifier grammar it still
returns the `CREATE TABLE` statement built from the snake-cased name and
the column lines. -/
theorem columnsToSQL_emits_without_validation (tableName : String)
    (columns : List ColumnSpec) (_h : validateIdentifier tableName = false) :
    columnsToSQL tableName columns =
      "CREATE TABLE " ++ toSnakeCase tableName ++ " (\n"
        ++ String.intercalate ",\n" (columns.map sqlLine) ++ "\n);" :=
  rfl

/-- Witness for the amended C1 at the injection table name. -/
theorem columnsToSQL_emits_without_validation_witness :
    validateIdentifier "users; DROP TABLE users;--" = false ∧
    columnsToSQL "users; DROP TABLE users;--" [{ name := "id", type := "integer" }] =
      "CREATE TABLE " ++ toSnakeCase "users; DROP TABLE users;--" ++ " (\n"
        ++ String.intercalate ",\n"
          (([{ name := "id", type := "integer" }] : List ColumnSpec).map sqlLine)
        ++ "\n);" :=
  ⟨by decide, columnsToSQL_emits_without_validation "users; DROP TABLE users;--" _ (by decide)⟩

/-- Counterexample for C2: an fk reference whose component contains a SQL
metacharacter is accepted by the parser — `parseColumnSpec` succeeds and
stores the invalid component verbatim as the foreign-key table. -/
theorem parseColumnSpec_fk_metachar_counterexample :
    parseColumnSpec "userId:uuid:fk(bad;ref)" =
      .ok [⟨"userId", "uuid", false, false, true, some "bad;ref", some "id", false, none⟩] ∧
    validateIdentifier "bad;ref" = false := by
  exact ⟨rfl, by decide⟩

theorem fkMatch_take3 (m ref : String) (h : fkMatch m = some ref) :
    (m.data.map Char.toLower).take 3 = ['f', 'k', '('] := by
  simp only [fkMatch] at h
  split at h
  · rename_i hc
    simp only [Bool.and_eq_true, beq_iff_eq] at hc
    rw [← List.map_take]
    exact hc.1.1.1
  · cases h

theorem take3_lower_ne (m kw : String)
    (h3 : (m.data.map Char.toLower).take 3 = ['f', 'k', '('])
    (hk : kw.data.take 3 ≠ ['f', 'k', '(']) : (strToLower m == kw) = false := by
  apply beq_eq_false_iff_ne.mpr
  intro he
  apply hk
  have hd : m.data.map Char.toLower = kw.data := congrArg String.data he
  rw [← hd]
  exact h3

/-- C2 as amended: the parser applies no identifier validation to fk
reference components — every modifier matching `/^fk\(([^)]+)\)$/i`,
whatever characters its reference contains, is accepted and resolved by
the dot-splitting rule alone. -/
theorem parseModifier_fk_accepts_unvalidated (col : ColumnSpec) (m ref : String)
    (h : fkMatch m = some ref) : parseModifier col m = .ok (applyFk col ref) := by
  have h3 := fkMatch_take3 m ref h
  have e1 := take3_lower_ne m "pk" h3 (by decide)
  have e2 := take3_lower_ne m "primarykey" h3 (by decide)
  have e3 := take3_lower_ne m "primary_key" h3 (by decide)
  have e4 := take3_lower_ne m "autoincrement" h3 (by decide)
  have e5 := take3_lower_ne m "auto_increment" h3 (by decide)
  have e6 := take3_lower_ne m "serial" h3 (by decide)
  have e7 := take3_lower_ne m "nullable" h3 (by decide)
  have e8 := take3_lower_ne m "null" h3 (by decide)
  simp [parseModifier, e1, e2, e3, e4, e5, e6, e7, e8, h]

/-- Witness for the amended C2 at the metacharacter reference. -/
theorem parseModifier_fk_accepts_unvalidated_witness :
    fkMatch "fk(bad;ref)" = some "bad;ref" ∧
    parseModifier { name := "userId", type := "uuid" } "fk(bad;ref)" =
      .ok (applyFk { name := "userId", type := "uuid" } "bad;ref") :=
  ⟨by decide,
   parseModifier_fk_accepts_unvalidated { name := "userId", type := "uuid" }
     "fk(bad;ref)" "bad;ref" (by decide)⟩

/-- Counterexample for C3: the Drift emitter does not escape single quotes
in string defaults — the quote in `O'Brien` is emitted verbatim, not as
the escaped form the claim requires. -/
theorem formatDartDefault_quote_counterexample :
    formatDartDefault "O'Brien" "text" = "const Constant('O'Brien')" ∧
    formatDartDefault "O'Brien" "text" ≠ "const Constant('O\\'Brien')" := by
  exact ⟨rfl, by decide⟩

/-- C3 as amended: for non-temporal, non-boolean, non-numeric defaults the
Drift emitter renders `const Constant('<raw>')` with the raw default value
interpolated verbatim — no quote-escaping is performed. -/
theorem formatDartDefault_no_escaping (v t : String)
    (h1 : v ≠ "now()") (h2 : v ≠ "now") (h3 : t ≠ "boolean") (h4 : t ≠ "integer")
    (h5 : t ≠ "real") (h6 : t ≠ "bigint") :
    formatDartDefault v t = "const Constant('" ++ v ++ "')" := by
  simp [formatDartDefault, h1, h2, h3, h4, h5, h6]

/-- Witness for the amended C3: the quote inside `O'Brien` appears
unescaped in the emitted constant. -/
theorem formatDartDefault_no_escaping_witness :
    formatDartDefault "O'Brien" "text" = "const Constant('" ++ "O'Brien" ++ "')" :=
  formatDartDefault_no_escaping "O'Brien" "text" (by decide) (by decide) (by decide)
    (by decide) (by decide) (by decide)

end SaasCli
